import Mathlib

/-!
# Verification of the `var_quantity` crate

Shallow embedding of the `var_quantity` Rust crate (dimensionally checked
variable quantities). Scalars (`f64` in the source) are modelled by `ℚ`;
none of the verified code paths involve rounding or transcendental values
(the exponential `exp` used in one evaluation branch is passed as an explicit
function parameter). The dimensional-algebra primitives (`Unit`,
`DynQuantity` from the external `dyn_quantity` crate) are modelled by their
documented contract: a vector of seven integer exponents with pointwise
addition/subtraction/scaling, and a scalar paired with such a unit.
-/

/-- The `Unit` type of the `dyn_quantity` crate: a vector of integer
exponents over the seven SI base dimensions. Named `Unit'` because `Unit`
is taken by the Lean prelude. -/
structure Unit' where
  second : Int
  meter : Int
  kelvin : Int
  kilogram : Int
  ampere : Int
  mol : Int
  candela : Int
deriving DecidableEq, Repr

namespace Unit'

/-- `Unit::default()`: the dimensionless unit (all exponents zero). -/
def dimensionless : Unit' := ⟨0, 0, 0, 0, 0, 0, 0⟩

instance : Inhabited Unit' := ⟨dimensionless⟩

/-- Unit multiplication: exponents add. -/
def mul (u v : Unit') : Unit' :=
  ⟨u.second + v.second, u.meter + v.meter, u.kelvin + v.kelvin,
   u.kilogram + v.kilogram, u.ampere + v.ampere, u.mol + v.mol,
   u.candela + v.candela⟩

/-- Unit division: exponents subtract. -/
def div (u v : Unit') : Unit' :=
  ⟨u.second - v.second, u.meter - v.meter, u.kelvin - v.kelvin,
   u.kilogram - v.kilogram, u.ampere - v.ampere, u.mol - v.mol,
   u.candela - v.candela⟩

/-- `Unit::powi`: integer power, exponents scale. -/
def powi (u : Unit') (k : Int) : Unit' :=
  ⟨u.second * k, u.meter * k, u.kelvin * k,
   u.kilogram * k, u.ampere * k, u.mol * k, u.candela * k⟩

instance : Mul Unit' := ⟨mul⟩
instance : Div Unit' := ⟨div⟩

theorem mul_def (u v : Unit') : u * v = mul u v := rfl

theorem div_def (u v : Unit') : u / v = div u v := rfl

end Unit'

/-- The `DynQuantity<f64>` type of the `dyn_quantity` crate: a scalar value
paired with a unit. -/
structure DynQuantity where
  value : ℚ
  unit : Unit'
deriving DecidableEq, Repr

instance : Inhabited DynQuantity := ⟨⟨0, default⟩⟩

/-- `DynQuantity<f64> * f64` of the `dyn_quantity` crate: scales the value,
leaves the unit untouched (used by `FirstOrderTaylor::call`). -/
def DynQuantity.scale (q : DynQuantity) (s : ℚ) : DynQuantity :=
  ⟨q.value * s, q.unit⟩

/-- The `UnitsNotEqual` error of the `dyn_quantity` crate, carrying the two
conflicting units (first component: expected, second: actual). -/
structure UnitsNotEqual where
  expected : Unit'
  actual : Unit'
deriving DecidableEq, Repr

/-- `var_quantity::filter_unary_function` (src/lib.rs:667-683): scan
`influencing_factors` in order; the first element whose unit equals
`match_for` is fed to `with_matched`; if none matches, `no_match` is
invoked. -/
def filter_unary_function (influencing_factors : List DynQuantity)
    (match_for : Unit') (with_matched : DynQuantity → DynQuantity)
    (no_match : Unit → DynQuantity) : DynQuantity :=
  match influencing_factors with
  | [] => no_match ()
  | iq :: rest =>
      if iq.unit = match_for then with_matched iq
      else filter_unary_function rest match_for with_matched no_match

/-- Characterization used by the claim theorems: `filter_unary_function`
dispatches on the first list element matching the target unit. -/
theorem filter_unary_function_eq_find (influencing_factors : List DynQuantity)
    (match_for : Unit') (with_matched : DynQuantity → DynQuantity)
    (no_match : Unit → DynQuantity) :
    filter_unary_function influencing_factors match_for with_matched no_match =
      match influencing_factors.find? (fun iq => iq.unit = match_for) with
      | some iq => with_matched iq
      | none => no_match () := by
  induction influencing_factors with
  | nil => rfl
  | cons iq rest ih =>
      by_cases h : iq.unit = match_for
      · simp [filter_unary_function, List.find?_cons, h]
      · simp [filter_unary_function, List.find?_cons, h, ih]

/-- The statically typed quantity kind `T` of `VarQuantity<T>` / the
`IsQuantity` bound (src/lib.rs:24-32), modelled by its two capabilities
used in the code: `T::unit_from_type()` (the `UnitFromType` trait of
`dyn_quantity`) and the fallible conversion `T::try_from(DynQuantity<f64>)`
(`none` models a conversion `Err`). The field `tryFrom_total` is the
documented contract of the external conversion: it always succeeds when the
dimensions match. -/
structure QuantityType (T : Type) where
  unit_from_type : Unit'
  tryFrom : DynQuantity → Option T
  tryFrom_total : ∀ q : DynQuantity, q.unit = unit_from_type → ∃ t, tryFrom q = some t

/-- `FunctionWrapper<T>` (src/lib.rs:139-142): a wrapper around a
`Box<dyn QuantityFunction>` trait object. The trait object itself is
modelled by its single capability, the pure method
`call : &[DynQuantity<f64>] -> DynQuantity<f64>`. -/
structure FunctionWrapper (T : Type) where
  function : List DynQuantity → DynQuantity

/-- `FunctionWrapper::<T>::new` (src/lib.rs:182-194): calls the function
with an empty slice, compares the resulting unit with `T::unit_from_type()`,
and fails with `UnitsNotEqual(expected, actual)` on mismatch. -/
def FunctionWrapper.new {T : Type} (inst : QuantityType T)
    (function : List DynQuantity → DynQuantity) :
    Except UnitsNotEqual (FunctionWrapper T) :=
  let actual := (function []).unit
  let expected := inst.unit_from_type
  if actual ≠ expected then Except.error ⟨expected, actual⟩
  else Except.ok ⟨function⟩

/-- `FunctionWrapper::call` (src/lib.rs:261-274): forwards the input to the
wrapped trait object and converts the result to `T`; the `Err` branch of the
conversion is a `panic!` in the source, modelled by `none`. -/
def FunctionWrapper.call {T : Type} (inst : QuantityType T)
    (w : FunctionWrapper T) (influencing_factors : List DynQuantity) :
    Option T :=
  inst.tryFrom (w.function influencing_factors)

/-- `VarQuantity<T>` (src/lib.rs:434-447): either a constant of type `T` or
a wrapped quantity function. -/
inductive VarQuantity (T : Type) where
  | Constant (val : T)
  | Function (w : FunctionWrapper T)

/-- `VarQuantity::get` (src/lib.rs:455-460): clones the constant or forwards
to `FunctionWrapper::call`. `some` models a normal return, `none` the panic
inside `FunctionWrapper::call`. -/
def VarQuantity.get {T : Type} (inst : QuantityType T) (q : VarQuantity T)
    (influencing_factors : List DynQuantity) : Option T :=
  match q with
  | .Constant val => some val
  | .Function w => w.call inst influencing_factors

/-- `unary::Linear` (src/unary/linear.rs:22-25). -/
structure Linear where
  slope : DynQuantity
  base_value : DynQuantity
deriving DecidableEq, Repr

/-- `Linear::new` (src/unary/linear.rs:39-41): infallible. -/
def Linear.new (slope base_value : DynQuantity) : Linear :=
  ⟨slope, base_value⟩

/-- `Linear::influencing_factor_unit` (src/unary/linear.rs:85-87). -/
def Linear.influencing_factor_unit (l : Linear) : Unit' :=
  l.base_value.unit / l.slope.unit

/-- `Linear::output_unit` (src/unary/linear.rs:105-107). -/
def Linear.output_unit (l : Linear) : Unit' := l.base_value.unit

/-- `<Linear as QuantityFunction>::call` (src/unary/linear.rs:112-126). -/
def Linear.call (l : Linear) (influencing_factors : List DynQuantity) :
    DynQuantity :=
  filter_unary_function influencing_factors l.influencing_factor_unit
    (fun input => ⟨l.base_value.value + l.slope.value * input.value, l.base_value.unit⟩)
    (fun _ => l.base_value)

/-- `unary::FirstOrderTaylor` (src/unary/first_order_taylor.rs:44-48). -/
structure FirstOrderTaylor where
  base_value : DynQuantity
  slope : DynQuantity
  expansion_point : DynQuantity
deriving DecidableEq, Repr

/-- `FirstOrderTaylor::new` (src/unary/first_order_taylor.rs:77-95):
requires `expansion_point.unit * slope.unit` to be dimensionless. -/
def FirstOrderTaylor.new (base_value slope expansion_point : DynQuantity) :
    Except UnitsNotEqual FirstOrderTaylor :=
  let expected : Unit' := default
  let found := expansion_point.unit * slope.unit
  if expected = found then Except.ok ⟨base_value, slope, expansion_point⟩
  else Except.error ⟨expected, found⟩

/-- `FirstOrderTaylor::influencing_factor_unit`
(src/unary/first_order_taylor.rs:147-149). -/
def FirstOrderTaylor.influencing_factor_unit (t : FirstOrderTaylor) : Unit' :=
  t.expansion_point.unit

/-- `FirstOrderTaylor::output_unit` (src/unary/first_order_taylor.rs:169-171). -/
def FirstOrderTaylor.output_unit (t : FirstOrderTaylor) : Unit' :=
  t.base_value.unit

/-- `<FirstOrderTaylor as QuantityFunction>::call`
(src/unary/first_order_taylor.rs:175-189). -/
def FirstOrderTaylor.call (t : FirstOrderTaylor)
    (influencing_factors : List DynQuantity) : DynQuantity :=
  filter_unary_function influencing_factors t.expansion_point.unit
    (fun input =>
      t.base_value.scale (1 + t.slope.value * (input.value - t.expansion_point.value)))
    (fun _ => t.base_value)

/-- `unary::Polynomial` (src/unary/polynomial.rs:31-39). Named `Polynomial'`
because `Polynomial` is taken by Mathlib. -/
structure Polynomial' where
  coefficients : List DynQuantity
  influencing_factor_unit : Unit'
  coefficients_val : List ℚ
  default_value : DynQuantity
deriving DecidableEq, Repr

/-- The coefficient-check loop of `Polynomial::new`
(src/unary/polynomial.rs:91-96):
`coefficients.iter().rev().enumerate().skip(1)` visits the tail of the
reversed coefficient list paired with the running exponent (the distance
from the end of the original list, starting at `1` after the skip); the
loop returns the first mismatch as `UnitsNotEqual`. -/
def polyUnitCheck (base_unit influencing_factor_unit : Unit') (exponent : Nat) :
    List DynQuantity → Option UnitsNotEqual
  | [] => none
  | c :: rest =>
      let res_unit := c.unit * influencing_factor_unit.powi (exponent : Int)
      if base_unit ≠ res_unit then some ⟨base_unit, res_unit⟩
      else polyUnitCheck base_unit influencing_factor_unit (exponent + 1) rest

/-- `Polynomial::new` (src/unary/polynomial.rs:68-109). -/
def Polynomial'.new (coefficients : List DynQuantity) :
    Except UnitsNotEqual Polynomial' :=
  let l := coefficients.length
  let influencing_factor_unit : Unit' :=
    if l > 1 then
      (coefficients.getD (l - 1) default).unit / (coefficients.getD (l - 2) default).unit
    else default
  match coefficients.getLast? with
  | some b =>
      match polyUnitCheck b.unit influencing_factor_unit 1
          (coefficients.reverse.drop 1) with
      | some e => Except.error e
      | none =>
          Except.ok ⟨coefficients, influencing_factor_unit,
            coefficients.map (fun q => q.value), b⟩
  | none =>
      Except.ok ⟨coefficients, influencing_factor_unit,
        coefficients.map (fun q => q.value), ⟨0, default⟩⟩

/-- Modelled from the spec: `horner::eval_polynomial` comes from the
external `horner` crate, whose source is not part of this repository.
Following the spec (§4.2: Polynomial in Horner form, coefficients
`[a₀…aₙ]` evaluated as `a₀xⁿ + … + aₙ`, and with zero terms the output
defaults to a dimensionless zero), it is Horner evaluation of the
coefficient list from highest to lowest degree, with the empty list
evaluating to the empty sum `0`. -/
def eval_polynomial (x : ℚ) : List ℚ → ℚ
  | [] => 0
  | c :: rest => rest.foldl (fun acc a => acc * x + a) c

/-- `<Polynomial as QuantityFunction>::call` (src/unary/polynomial.rs:178-191). -/
def Polynomial'.call (p : Polynomial')
    (influencing_factors : List DynQuantity) : DynQuantity :=
  filter_unary_function influencing_factors p.influencing_factor_unit
    (fun input => ⟨eval_polynomial input.value p.coefficients_val, p.default_value.unit⟩)
    (fun _ => p.default_value)

/-- `unary::ExpTerm` (src/unary/exponential.rs:15-20). -/
structure ExpTerm where
  amplitude : DynQuantity
  exponent : DynQuantity
deriving DecidableEq, Repr

/-- `unary::Exponential` (src/unary/exponential.rs:41-47). -/
structure Exponential where
  terms : List ExpTerm
  output_unit : Unit'
  influencing_factor_unit : Unit'
deriving DecidableEq, Repr

/-- The adjacent-pair check of `Exponential::new`
(src/unary/exponential.rs:105-117): `terms.windows(2).find_map(..)`,
returning the first window with mismatched amplitude units (checked first)
or mismatched exponent units. -/
def expPairCheck : List ExpTerm → Option UnitsNotEqual
  | term1 :: term2 :: rest =>
      if term1.amplitude.unit ≠ term2.amplitude.unit then
        some ⟨term1.amplitude.unit, term2.amplitude.unit⟩
      else if term1.exponent.unit ≠ term2.exponent.unit then
        some ⟨term1.exponent.unit, term2.exponent.unit⟩
      else expPairCheck (term2 :: rest)
  | _ => none

/-- `Exponential::new` (src/unary/exponential.rs:97-127). -/
def Exponential.new (terms : List ExpTerm) :
    Except UnitsNotEqual Exponential :=
  let influencing_factor_unit : Unit' :=
    match terms.head? with
    | some t => t.exponent.unit.powi (-1)
    | none => default
  match expPairCheck terms with
  | some e => Except.error e
  | none =>
      let output_unit :=
        ((terms.head?).map (fun term => term.amplitude.unit)).getD default
      Except.ok ⟨terms, output_unit, influencing_factor_unit⟩

/-- `<Exponential as QuantityFunction>::call`
(src/unary/exponential.rs:200-221). The transcendental `f64::exp` is passed
as the explicit parameter `rexp`; the claims about this function only
concern the branch that does not use it. -/
def Exponential.call (rexp : ℚ → ℚ) (e : Exponential)
    (influencing_factors : List DynQuantity) : DynQuantity :=
  filter_unary_function influencing_factors e.influencing_factor_unit
    (fun input =>
      ⟨(e.terms.map (fun t => t.amplitude.value * rexp (t.exponent.value * input.value))).sum,
       e.output_unit⟩)
    (fun _ => ⟨(e.terms.map (fun t => t.amplitude.value)).sum, e.output_unit⟩)

/-- `f64::clamp(self, min, max)` from the Rust standard library, for the
non-NaN values modelled by `ℚ`: restrict `v` to `[lo, hi]`. -/
def f64Clamp (v lo hi : ℚ) : ℚ :=
  if v < lo then lo else if v > hi then hi else v

/-- `ClampedQuantity<T>` (src/lib.rs:557-563): an inner quantity function
of type `T` plus two scalar limits. -/
structure ClampedQuantity (T : Type) where
  upper_limit : ℚ
  lower_limit : ℚ
  function : T
deriving Repr

/-- `ClampedQuantity::new` (src/lib.rs:570-579): fails iff
`upper_limit < lower_limit`. -/
def ClampedQuantity.new {T : Type} (upper_limit lower_limit : ℚ)
    (function : T) : Except String (ClampedQuantity T) :=
  if upper_limit < lower_limit then
    Except.error "upper limit must not be smaller than the lower limit"
  else Except.ok ⟨upper_limit, lower_limit, function⟩

/-- `ClampedQuantity::call_clamped` (src/lib.rs:610-615): delegate to the
inner function (its `QuantityFunction::call` method is the parameter
`callT`), then clamp the scalar value, leaving the unit untouched. -/
def ClampedQuantity.call_clamped {T : Type}
    (callT : T → List DynQuantity → DynQuantity) (c : ClampedQuantity T)
    (influencing_factors : List DynQuantity) : DynQuantity :=
  let dyn_quantity := callT c.function influencing_factors
  ⟨f64Clamp dyn_quantity.value c.lower_limit c.upper_limit, dyn_quantity.unit⟩

/-- The serde-derived `Deserialize` implementation of `ClampedQuantity`
(the `derive(Serialize, Deserialize)` attribute at src/lib.rs:558):
fieldwise construction from the three deserialized fields, with no
validation — in particular the `upper_limit >= lower_limit` check of
`ClampedQuantity::new` is not run on this path. -/
def ClampedQuantity.deserialize {T : Type} (upper_limit lower_limit : ℚ)
    (function : T) : ClampedQuantity T :=
  ⟨upper_limit, lower_limit, function⟩

/-- The untagged helper enum `NumberOrString<T>` inside
`VarQuantity::deserialize` (src/lib.rs:499-504). -/
inductive NumberOrString (T : Type) where
  | Number (q : T)
  | Str (s : String)

/-- The serde primitives consumed by `VarQuantity::deserialize`
(src/lib.rs:488-530) and `FunctionWrapper::deserialize`
(src/lib.rs:478-486), supplied by the external serde framework and the
parsing impls of `T` / `DynQuantity`. They are modelled as explicit
functions over an abstract payload type `P` (the buffered
`serde_value::Value` content) and an abstract error type `E`
(`D::Error`); each fallible step already carries its
`map_err(serde::de::Error::custom)` conversion into `E`. -/
structure SerdePrimitives (T P E : Type) where
  numberOrString : P → Except E (NumberOrString T)
  fromStr : String → Except E DynQuantity
  tryFromT : DynQuantity → Except E T
  deserializeBox : P → Except E (List DynQuantity → DynQuantity)
  customError : UnitsNotEqual → E

/-- `<FunctionWrapper<T> as Deserialize>::deserialize` (src/lib.rs:478-486):
deserialize the boxed trait object, then run `FunctionWrapper::new`
(the one-time empty-input self-test), mapping its `UnitsNotEqual` error
through `serde::de::Error::custom`. -/
def FunctionWrapper.deserialize {T P E : Type} (inst : QuantityType T)
    (sp : SerdePrimitives T P E) (payload : P) :
    Except E (FunctionWrapper T) :=
  match sp.deserializeBox payload with
  | Except.error e => Except.error e
  | Except.ok v =>
      match FunctionWrapper.new inst v with
      | Except.error e => Except.error (sp.customError e)
      | Except.ok w => Except.ok w

/-- `<VarQuantity<T> as Deserialize>::deserialize` (src/lib.rs:488-530):
buffer the payload, try to parse it as `NumberOrString<T>` (a bare number
giving `Constant` directly, or a string parsed via
`DynQuantity::from_str` and converted to `T`); if the `NumberOrString`
parse fails, fall back to `FunctionWrapper::deserialize` on the same
payload and yield `Function`. -/
def VarQuantity.deserialize {T P E : Type} (inst : QuantityType T)
    (sp : SerdePrimitives T P E) (payload : P) :
    Except E (VarQuantity T) :=
  match sp.numberOrString payload with
  | Except.ok (NumberOrString.Number q) => Except.ok (VarQuantity.Constant q)
  | Except.ok (NumberOrString.Str s) =>
      match sp.fromStr s with
      | Except.error e => Except.error e
      | Except.ok dq =>
          match sp.tryFromT dq with
          | Except.error e => Except.error e
          | Except.ok q => Except.ok (VarQuantity.Constant q)
  | Except.error _ =>
      match FunctionWrapper.deserialize inst sp payload with
      | Except.error e => Except.error e
      | Except.ok w => Except.ok (VarQuantity.Function w)

/-- A concrete statically typed quantity kind used by the witness theorems:
the dynamic quantity type itself, declared at unit `u`; the conversion
succeeds exactly on matching units. -/
def qtOfUnit (u : Unit') : QuantityType DynQuantity where
  unit_from_type := u
  tryFrom := fun q => if q.unit = u then some q else none
  tryFrom_total := fun q h => ⟨q, by simp [h]⟩

/-- The ampere unit, used as a concrete non-dimensionless unit in witness
theorems. -/
def ampereUnit : Unit' := ⟨0, 0, 0, 0, 1, 0, 0⟩

/-- C1: `VarQuantity::get` returns a clone of the stored value for the
`Constant` variant (regardless of the input list) and returns
`FunctionWrapper::call` applied to the input list for the `Function`
variant; the enum has exactly these two variants, so there is no other
behavior. -/
theorem varQuantity_get_spec {T : Type} (inst : QuantityType T) (v : T)
    (w : FunctionWrapper T) (influencing_factors : List DynQuantity) :
    VarQuantity.get inst (VarQuantity.Constant v) influencing_factors = some v ∧
    VarQuantity.get inst (VarQuantity.Function w) influencing_factors =
      w.call inst influencing_factors :=
  ⟨rfl, rfl⟩

/-- C2: `FunctionWrapper::<T>::new` calls the function once with the empty
input list and succeeds, storing the function, iff the returned unit equals
`T`'s declared unit; otherwise it fails with a dimension-mismatch error
carrying the expected and the actual unit, and no wrapper is produced. -/
theorem functionWrapper_new_spec {T : Type} (inst : QuantityType T)
    (function : List DynQuantity → DynQuantity) :
    ((∃ w, FunctionWrapper.new inst function = Except.ok w) ↔
      (function []).unit = inst.unit_from_type) ∧
    (∀ w, FunctionWrapper.new inst function = Except.ok w →
      w.function = function) ∧
    ((function []).unit ≠ inst.unit_from_type →
      FunctionWrapper.new inst function =
        Except.error ⟨inst.unit_from_type, (function []).unit⟩) := by
  by_cases h : (function []).unit = inst.unit_from_type
  · have hok : FunctionWrapper.new inst function = Except.ok ⟨function⟩ := by
      simp [FunctionWrapper.new, h]
    refine ⟨⟨fun _ => h, fun _ => ⟨⟨function⟩, hok⟩⟩, ?_, fun hc => absurd h hc⟩
    intro w hw
    rw [hok] at hw
    cases hw
    rfl
  · have herr : FunctionWrapper.new inst function =
        Except.error ⟨inst.unit_from_type, (function []).unit⟩ := by
      simp [FunctionWrapper.new, h]
    refine ⟨⟨?_, fun hc => absurd hc h⟩, ?_, fun _ => herr⟩
    · rintro ⟨w, hw⟩
      rw [herr] at hw
      simp at hw
    · intro w hw
      rw [herr] at hw
      simp at hw

/-- C2 witness: a wrapper over a function returning amperes, requested at
the dimensionless type, fails with the two units. -/
theorem functionWrapper_new_spec_witness :
    FunctionWrapper.new (qtOfUnit Unit'.dimensionless)
        (fun _ => ⟨1, ampereUnit⟩) =
      Except.error ⟨Unit'.dimensionless, ampereUnit⟩ :=
  (functionWrapper_new_spec (qtOfUnit Unit'.dimensionless)
    (fun _ => ⟨1, ampereUnit⟩)).2.2 (by decide)

/-- C3: `FunctionWrapper::call` returns the converted value when the inner
function's output converts to `T` — which happens whenever the output unit
equals `T`'s declared unit — and takes the panic branch (modelled `none`),
returning no value, exactly when the conversion fails; for a wrapper built
by `FunctionWrapper::new` whose inner function always returns the same unit
as on the empty input, the panic branch is unreachable. -/
theorem functionWrapper_call_spec {T : Type} (inst : QuantityType T)
    (w : FunctionWrapper T) (influencing_factors : List DynQuantity) :
    (∀ t, inst.tryFrom (w.function influencing_factors) = some t →
      w.call inst influencing_factors = some t) ∧
    (inst.tryFrom (w.function influencing_factors) = none →
      w.call inst influencing_factors = none) ∧
    ((w.function influencing_factors).unit = inst.unit_from_type →
      (w.call inst influencing_factors).isSome = true) ∧
    (∀ function, FunctionWrapper.new inst function = Except.ok w →
      (∀ xs, (function xs).unit = (function []).unit) →
      (w.call inst influencing_factors).isSome = true) := by
  refine ⟨fun t h => h, fun h => h, ?_, ?_⟩
  · intro h
    obtain ⟨t, ht⟩ := inst.tryFrom_total _ h
    simp [FunctionWrapper.call, ht]
  · intro function hnew hinv
    by_cases h : (function []).unit = inst.unit_from_type
    · have hok : FunctionWrapper.new inst function = Except.ok ⟨function⟩ := by
        simp [FunctionWrapper.new, h]
      rw [hok] at hnew
      cases hnew
      obtain ⟨t, ht⟩ := inst.tryFrom_total (function influencing_factors)
        ((hinv influencing_factors).trans h)
      simp [FunctionWrapper.call, ht]
    · have herr : FunctionWrapper.new inst function =
          Except.error ⟨inst.unit_from_type, (function []).unit⟩ := by
        simp [FunctionWrapper.new, h]
      rw [herr] at hnew
      simp at hnew

/-- C3 witness: a constant dimensionless inner function wrapped at the
dimensionless type never panics, here on a one-element input list. -/
theorem functionWrapper_call_spec_witness :
    (FunctionWrapper.call (qtOfUnit Unit'.dimensionless)
        ⟨fun _ => ⟨2, Unit'.dimensionless⟩⟩ [⟨1, ampereUnit⟩]).isSome = true :=
  (functionWrapper_call_spec (qtOfUnit Unit'.dimensionless)
      ⟨fun _ => ⟨2, Unit'.dimensionless⟩⟩ [⟨1, ampereUnit⟩]).2.2.2
    (fun _ => ⟨2, Unit'.dimensionless⟩) rfl (fun _ => rfl)

/-- Helper: when no element matches, `filter_unary_function` invokes the
no-match continuation. -/
theorem filter_unary_function_no_match (influencing_factors : List DynQuantity)
    (match_for : Unit') (with_matched : DynQuantity → DynQuantity)
    (no_match : Unit → DynQuantity)
    (h : ∀ iq ∈ influencing_factors, iq.unit ≠ match_for) :
    filter_unary_function influencing_factors match_for with_matched no_match =
      no_match () := by
  rw [filter_unary_function_eq_find]
  have hfind : influencing_factors.find? (fun iq => iq.unit = match_for) = none := by
    rw [List.find?_eq_none]
    intro x hx
    simpa using h x hx
  rw [hfind]

/-- Helper: the first matching element (at index `i`, with all earlier
indices non-matching) is the one handed to the matched continuation. -/
theorem filter_unary_function_first_match
    (influencing_factors : List DynQuantity) (match_for : Unit')
    (with_matched : DynQuantity → DynQuantity) (no_match : Unit → DynQuantity)
    (i : Nat) (hi : i < influencing_factors.length)
    (hm : (influencing_factors.getD i default).unit = match_for)
    (hfirst : ∀ j, j < i → (influencing_factors.getD j default).unit ≠ match_for) :
    filter_unary_function influencing_factors match_for with_matched no_match =
      with_matched (influencing_factors.getD i default) := by
  induction influencing_factors generalizing i with
  | nil => simp at hi
  | cons iq rest ih =>
      cases i with
      | zero =>
          simp only [List.getD_cons_zero] at hm ⊢
          simp [filter_unary_function, hm]
      | succ i =>
          have h0 : iq.unit ≠ match_for := by
            simpa using hfirst 0 (Nat.succ_pos i)
          simp only [List.getD_cons_succ] at hm ⊢
          simp only [filter_unary_function, if_neg h0]
          exact ih i (by simpa using hi) hm (fun j hj => by
            simpa using hfirst (j + 1) (Nat.succ_lt_succ hj))

/-- C6: `filter_unary_function` scans the input list in order and invokes
the matched continuation with the first element whose unit equals the
target (first match wins, even when several elements match); if no element
matches, it invokes the no-match continuation; nothing else contributes to
the result. -/
theorem filter_unary_function_spec (influencing_factors : List DynQuantity)
    (match_for : Unit') (with_matched : DynQuantity → DynQuantity)
    (no_match : Unit → DynQuantity) :
    (∀ i, i < influencing_factors.length →
      (influencing_factors.getD i default).unit = match_for →
      (∀ j, j < i → (influencing_factors.getD j default).unit ≠ match_for) →
      filter_unary_function influencing_factors match_for with_matched no_match =
        with_matched (influencing_factors.getD i default)) ∧
    ((∀ iq ∈ influencing_factors, iq.unit ≠ match_for) →
      filter_unary_function influencing_factors match_for with_matched no_match =
        no_match ()) :=
  ⟨fun i hi hm hfirst => filter_unary_function_first_match influencing_factors
      match_for with_matched no_match i hi hm hfirst,
   fun h => filter_unary_function_no_match influencing_factors match_for
      with_matched no_match h⟩

/-- C6 witness: with two ampere-valued entries in the list, the first one
(at index 1, after a non-matching dimensionless entry) wins. -/
theorem filter_unary_function_spec_witness :
    filter_unary_function [⟨1, Unit'.dimensionless⟩, ⟨2, ampereUnit⟩, ⟨3, ampereUnit⟩]
        ampereUnit (fun iq => iq) (fun _ => ⟨0, Unit'.dimensionless⟩) =
      ⟨2, ampereUnit⟩ :=
  (filter_unary_function_spec
      [⟨1, Unit'.dimensionless⟩, ⟨2, ampereUnit⟩, ⟨3, ampereUnit⟩]
      ampereUnit (fun iq => iq) (fun _ => ⟨0, Unit'.dimensionless⟩)).1
    1 (by decide) (by decide) (by decide)

/-- Helper: the fields of a successfully constructed `Polynomial'`. -/
theorem polynomial_new_ok_fields {coefficients : List DynQuantity}
    {p : Polynomial'} (h : Polynomial'.new coefficients = Except.ok p) :
    p = ⟨coefficients,
      (if coefficients.length > 1 then
        (coefficients.getD (coefficients.length - 1) default).unit /
          (coefficients.getD (coefficients.length - 2) default).unit
      else default),
      coefficients.map (fun q => q.value),
      coefficients.getLast?.getD ⟨0, default⟩⟩ := by
  simp only [Polynomial'.new] at h
  split at h
  next b hb =>
    split at h
    · simp at h
    · cases h
      simp [hb]
  next hb =>
    cases h
    simp [hb]

/-- Helper: the fields of a successfully constructed `Exponential`. -/
theorem exponential_new_ok_fields {terms : List ExpTerm} {e : Exponential}
    (h : Exponential.new terms = Except.ok e) :
    e = ⟨terms,
      ((terms.head?).map (fun term => term.amplitude.unit)).getD default,
      (match terms.head? with
       | some t => t.exponent.unit.powi (-1)
       | none => default)⟩ := by
  simp only [Exponential.new] at h
  split at h
  · simp at h
  · cases h
    rfl

/-- C5: calling with an input list containing no value of the
influencing-factor dimension — the empty list, or a list with only
non-matching dimensions — returns exactly the stated fallback:
`Linear` its `base_value`, `FirstOrderTaylor` its `base_value`,
`Polynomial` its last (constant) coefficient, and `Exponential` the sum of
its amplitudes at its output dimension. -/
theorem no_match_fallback_spec :
    (∀ (l : Linear) influencing_factors,
      (∀ iq ∈ influencing_factors, iq.unit ≠ l.influencing_factor_unit) →
      l.call influencing_factors = l.base_value) ∧
    (∀ (t : FirstOrderTaylor) influencing_factors,
      (∀ iq ∈ influencing_factors, iq.unit ≠ t.influencing_factor_unit) →
      t.call influencing_factors = t.base_value) ∧
    (∀ coefficients (p : Polynomial') influencing_factors,
      Polynomial'.new coefficients = Except.ok p →
      (∀ iq ∈ influencing_factors, iq.unit ≠ p.influencing_factor_unit) →
      p.call influencing_factors = coefficients.getLast?.getD ⟨0, default⟩) ∧
    (∀ rexp terms (e : Exponential) influencing_factors,
      Exponential.new terms = Except.ok e →
      (∀ iq ∈ influencing_factors, iq.unit ≠ e.influencing_factor_unit) →
      Exponential.call rexp e influencing_factors =
        ⟨(terms.map (fun t => t.amplitude.value)).sum, e.output_unit⟩) := by
  refine ⟨?_, ?_, ?_, ?_⟩
  · intro l influencing_factors h
    exact filter_unary_function_no_match influencing_factors _ _ _ h
  · intro t influencing_factors h
    exact filter_unary_function_no_match influencing_factors _ _ _ h
  · intro coefficients p influencing_factors hnew h
    have hp := polynomial_new_ok_fields hnew
    have hcall : p.call influencing_factors = p.default_value :=
      filter_unary_function_no_match influencing_factors _ _ _ h
    rw [hcall, hp]
  · intro rexp terms e influencing_factors hnew h
    have he := exponential_new_ok_fields hnew
    have hcall : Exponential.call rexp e influencing_factors =
        ⟨(e.terms.map (fun t => t.amplitude.value)).sum, e.output_unit⟩ :=
      filter_unary_function_no_match influencing_factors _ _ _ h
    rw [hcall, he]

/-- C5 witness: each of the four functions, at a concrete instance and a
one-element non-matching input list, returns its fallback value. -/
theorem no_match_fallback_spec_witness :
    Linear.call (Linear.new ⟨1/2, Unit'.dimensionless⟩ ⟨-3, Unit'.dimensionless⟩)
        [⟨7, ampereUnit⟩] = ⟨-3, Unit'.dimensionless⟩ ∧
    FirstOrderTaylor.call ⟨⟨2, Unit'.dimensionless⟩, ⟨1, Unit'.dimensionless⟩,
        ⟨3, Unit'.dimensionless⟩⟩ [⟨7, ampereUnit⟩] = ⟨2, Unit'.dimensionless⟩ ∧
    Polynomial'.call ⟨[⟨3, Unit'.dimensionless⟩, ⟨2, Unit'.dimensionless⟩],
        Unit'.dimensionless, [3, 2], ⟨2, Unit'.dimensionless⟩⟩ [⟨7, ampereUnit⟩] =
      ⟨2, Unit'.dimensionless⟩ ∧
    Exponential.call (fun x => x)
        ⟨[⟨⟨1, Unit'.dimensionless⟩, ⟨1, ampereUnit⟩⟩,
          ⟨⟨2, Unit'.dimensionless⟩, ⟨1, ampereUnit⟩⟩],
         Unit'.dimensionless, Unit'.powi ampereUnit (-1)⟩ [⟨7, ampereUnit⟩] =
      ⟨3, Unit'.dimensionless⟩ :=
  ⟨no_match_fallback_spec.1 _ _ (by decide),
   no_match_fallback_spec.2.1 _ _ (by decide),
   (no_match_fallback_spec.2.2.1
     [⟨3, Unit'.dimensionless⟩, ⟨2, Unit'.dimensionless⟩] _
     [⟨7, ampereUnit⟩] rfl (by decide)).trans (by decide),
   (no_match_fallback_spec.2.2.2 (fun x => x)
     [⟨⟨1, Unit'.dimensionless⟩, ⟨1, ampereUnit⟩⟩,
      ⟨⟨2, Unit'.dimensionless⟩, ⟨1, ampereUnit⟩⟩] _
     [⟨7, ampereUnit⟩] rfl (by decide)).trans (by
       simp only [DynQuantity.mk.injEq]
       refine ⟨by norm_num, by decide⟩)⟩

/-- Helper: for `lo ≤ hi`, Rust's `f64::clamp` is `max lo (min hi v)`. -/
theorem f64Clamp_eq_max_min (v lo hi : ℚ) (h : lo ≤ hi) :
    f64Clamp v lo hi = max lo (min hi v) := by
  unfold f64Clamp
  split_ifs with h1 h2
  · rw [min_eq_right (le_of_lt (lt_of_lt_of_le h1 h)), max_eq_left (le_of_lt h1)]
  · rw [min_eq_left (le_of_lt h2), max_eq_right h]
  · rw [min_eq_right (not_lt.mp h2), max_eq_right (not_lt.mp h1)]

/-- C7: `ClampedQuantity::new` fails exactly when the upper limit is smaller
than the lower limit; for a constructed instance (so `lo ≤ hi`), the clamped
call returns the inner function's result with its scalar replaced by
`max lo (min hi v)` and its dimension unchanged. -/
theorem clampedQuantity_spec {T : Type}
    (callT : T → List DynQuantity → DynQuantity)
    (upper_limit lower_limit : ℚ) (function : T) :
    ((∃ c, ClampedQuantity.new upper_limit lower_limit function = Except.ok c) ↔
      ¬ upper_limit < lower_limit) ∧
    (∀ c, ClampedQuantity.new upper_limit lower_limit function = Except.ok c →
      ∀ influencing_factors,
        c.call_clamped callT influencing_factors =
          ⟨max lower_limit
             (min upper_limit (callT function influencing_factors).value),
           (callT function influencing_factors).unit⟩) := by
  by_cases h : upper_limit < lower_limit
  · constructor
    · constructor
      · rintro ⟨c, hc⟩
        simp [ClampedQuantity.new, h] at hc
      · intro hc
        exact absurd h hc
    · intro c hc
      simp [ClampedQuantity.new, h] at hc
  · have hok : ClampedQuantity.new upper_limit lower_limit function =
        Except.ok ⟨upper_limit, lower_limit, function⟩ := by
      simp [ClampedQuantity.new, h]
    refine ⟨iff_of_true ⟨_, hok⟩ h, ?_⟩
    intro c hc influencing_factors
    rw [hok] at hc
    cases hc
    show (⟨f64Clamp (callT function influencing_factors).value lower_limit upper_limit,
           (callT function influencing_factors).unit⟩ : DynQuantity) = _
    rw [f64Clamp_eq_max_min _ _ _ (not_lt.mp h)]

/-- C7 witness: clamping a linear function whose fallback value `-3` lies
below the limits `(lo, hi) = (0, 5)` yields `0`. -/
theorem clampedQuantity_spec_witness :
    ClampedQuantity.call_clamped Linear.call
        ⟨5, 0, Linear.new ⟨2, Unit'.dimensionless⟩ ⟨-3, Unit'.dimensionless⟩⟩ [] =
      ⟨0, Unit'.dimensionless⟩ :=
  ((clampedQuantity_spec Linear.call 5 0
      (Linear.new ⟨2, Unit'.dimensionless⟩ ⟨-3, Unit'.dimensionless⟩)).2
    ⟨5, 0, Linear.new ⟨2, Unit'.dimensionless⟩ ⟨-3, Unit'.dimensionless⟩⟩ rfl []).trans
    (by
      show (⟨max 0 (min 5 (-3 : ℚ)), Unit'.dimensionless⟩ : DynQuantity) =
        ⟨0, Unit'.dimensionless⟩
      have hmm : max (0 : ℚ) (min 5 (-3)) = 0 := by
        norm_num [min_def, max_def]
      rw [hmm])

/-- C8 counterexample: the serde-derived deserializer of `ClampedQuantity`
fills the fields without running the `ClampedQuantity::new` range check, so
deserializing `upper_limit = 0`, `lower_limit = 1` produces an instance
violating the invariant `lower_limit ≤ upper_limit`. -/
theorem clampedQuantity_deserialize_violates_invariant :
    ¬ ((ClampedQuantity.deserialize 0 1
          (Linear.new ⟨1, Unit'.dimensionless⟩ ⟨0, Unit'.dimensionless⟩)).lower_limit ≤
        (ClampedQuantity.deserialize 0 1
          (Linear.new ⟨1, Unit'.dimensionless⟩ ⟨0, Unit'.dimensionless⟩)).upper_limit) := by
  norm_num [ClampedQuantity.deserialize]

/-- C8 amended: every `ClampedQuantity` produced by `ClampedQuantity::new`
satisfies `lower_limit ≤ upper_limit`, with the limits and inner function
stored unchanged (and never mutated afterwards, all values being
immutable); the serde-deserialization path performs no such check. -/
theorem clampedQuantity_new_invariant {T : Type}
    (upper_limit lower_limit : ℚ) (function : T) (c : ClampedQuantity T)
    (h : ClampedQuantity.new upper_limit lower_limit function = Except.ok c) :
    c.lower_limit ≤ c.upper_limit ∧ c.upper_limit = upper_limit ∧
      c.lower_limit = lower_limit ∧ c.function = function := by
  by_cases hlt : upper_limit < lower_limit
  · simp [ClampedQuantity.new, hlt] at h
  · have hok : ClampedQuantity.new upper_limit lower_limit function =
        Except.ok ⟨upper_limit, lower_limit, function⟩ := by
      simp [ClampedQuantity.new, hlt]
    rw [hok] at h
    cases h
    exact ⟨not_lt.mp hlt, rfl, rfl, rfl⟩

/-- C8 amended-claim witness at concrete limits `(5, 0)`. -/
theorem clampedQuantity_new_invariant_witness :
    (ClampedQuantity.mk 5 0
        (Linear.new ⟨1, Unit'.dimensionless⟩ ⟨0, Unit'.dimensionless⟩)).lower_limit ≤
      (ClampedQuantity.mk 5 0
        (Linear.new ⟨1, Unit'.dimensionless⟩ ⟨0, Unit'.dimensionless⟩)).upper_limit :=
  (clampedQuantity_new_invariant 5 0
    (Linear.new ⟨1, Unit'.dimensionless⟩ ⟨0, Unit'.dimensionless⟩)
    ⟨5, 0, Linear.new ⟨1, Unit'.dimensionless⟩ ⟨0, Unit'.dimensionless⟩⟩ rfl).1

/-- C9: a `Polynomial` constructed from the empty coefficient vector has the
dimensionless influencing-factor unit, and calling it on any input list —
including lists containing a (matching) dimensionless value — returns the
dimensionless zero quantity; the embedding is total, so no panic occurs. -/
theorem polynomial_empty_spec (p : Polynomial')
    (h : Polynomial'.new [] = Except.ok p) :
    p.influencing_factor_unit = Unit'.dimensionless ∧
    ∀ influencing_factors,
      p.call influencing_factors = ⟨0, Unit'.dimensionless⟩ := by
  have hp := polynomial_new_ok_fields h
  subst hp
  refine ⟨rfl, ?_⟩
  intro influencing_factors
  rw [Polynomial'.call, filter_unary_function_eq_find]
  split
  · rfl
  · rfl

/-- C9 witness: the empty polynomial, called on a list containing a matching
dimensionless value, returns dimensionless zero. -/
theorem polynomial_empty_spec_witness :
    Polynomial'.call ⟨[], Unit'.dimensionless, [], ⟨0, Unit'.dimensionless⟩⟩
        [⟨5, Unit'.dimensionless⟩] = ⟨0, Unit'.dimensionless⟩ :=
  (polynomial_empty_spec ⟨[], Unit'.dimensionless, [], ⟨0, Unit'.dimensionless⟩⟩
    rfl).2 [⟨5, Unit'.dimensionless⟩]

/-- C10: `VarQuantity::deserialize` first attempts the constant
interpretation (bare number, or unit-tagged string converted to `T`),
yielding `Constant` on success; it attempts the tagged
function-object parse only when the `NumberOrString` parse fails (the
result does not depend on the function-parsing primitives otherwise),
running `FunctionWrapper::new`'s one-time empty-input self-test before
yielding `Function`; and when the constant attempt and the function attempt
both fail, the surfaced error is the function-parsing error. -/
theorem varQuantity_deserialize_spec {T P E : Type} (inst : QuantityType T)
    (sp : SerdePrimitives T P E) (payload : P) :
    (∀ q, sp.numberOrString payload = Except.ok (NumberOrString.Number q) →
      VarQuantity.deserialize inst sp payload =
        Except.ok (VarQuantity.Constant q)) ∧
    (∀ s dq q, sp.numberOrString payload = Except.ok (NumberOrString.Str s) →
      sp.fromStr s = Except.ok dq → sp.tryFromT dq = Except.ok q →
      VarQuantity.deserialize inst sp payload =
        Except.ok (VarQuantity.Constant q)) ∧
    (∀ v, sp.numberOrString payload = Except.ok v →
      ∀ sp2 : SerdePrimitives T P E, sp2.numberOrString = sp.numberOrString →
        sp2.fromStr = sp.fromStr → sp2.tryFromT = sp.tryFromT →
        VarQuantity.deserialize inst sp2 payload =
          VarQuantity.deserialize inst sp payload) ∧
    (∀ e w, sp.numberOrString payload = Except.error e →
      FunctionWrapper.deserialize inst sp payload = Except.ok w →
      VarQuantity.deserialize inst sp payload =
        Except.ok (VarQuantity.Function w)) ∧
    (∀ e e2, sp.numberOrString payload = Except.error e →
      FunctionWrapper.deserialize inst sp payload = Except.error e2 →
      VarQuantity.deserialize inst sp payload = Except.error e2) ∧
    (∀ v w, sp.deserializeBox payload = Except.ok v →
      FunctionWrapper.deserialize inst sp payload = Except.ok w →
      (v []).unit = inst.unit_from_type ∧ w.function = v) := by
  refine ⟨?_, ?_, ?_, ?_, ?_, ?_⟩
  · intro q hq
    simp only [VarQuantity.deserialize, hq]
  · intro s dq q hs hdq hq
    simp only [VarQuantity.deserialize, hs, hdq, hq]
  · intro v hv sp2 h1 h2 h3
    cases v with
    | Number q => simp only [VarQuantity.deserialize, h1, h2, h3, hv]
    | Str s => simp only [VarQuantity.deserialize, h1, h2, h3, hv]
  · intro e w he hw
    simp only [VarQuantity.deserialize, he, hw]
  · intro e e2 he hw
    simp only [VarQuantity.deserialize, he, hw]
  · intro v w hv hw
    by_cases h : (v []).unit = inst.unit_from_type
    · have hok : FunctionWrapper.new inst v = Except.ok ⟨v⟩ := by
        simp [FunctionWrapper.new, h]
      simp only [FunctionWrapper.deserialize, hv, hok, Except.ok.injEq] at hw
      exact ⟨h, by rw [← hw]⟩
    · have herr : FunctionWrapper.new inst v =
          Except.error ⟨inst.unit_from_type, (v []).unit⟩ := by
        simp [FunctionWrapper.new, h]
      simp only [FunctionWrapper.deserialize, hv, herr] at hw
      simp at hw

/-- A concrete set of serde primitives for the C10 witness: payload `0`
parses as the constant `1` (dimensionless); every other payload fails both
the constant parse (error `7`) and the boxed-function parse (error `9`). -/
def spWitness : SerdePrimitives DynQuantity Nat Nat where
  numberOrString := fun payload =>
    if payload = 0 then Except.ok (NumberOrString.Number ⟨1, Unit'.dimensionless⟩)
    else Except.error 7
  fromStr := fun _ => Except.error 8
  tryFromT := fun dq => Except.ok dq
  deserializeBox := fun _ => Except.error 9
  customError := fun _ => 10

/-- C10 witness: payload `0` deserializes to the constant; payload `1`
fails both attempts and surfaces the function-parsing error `9`. -/
theorem varQuantity_deserialize_spec_witness :
    VarQuantity.deserialize (qtOfUnit Unit'.dimensionless) spWitness 0 =
      Except.ok (VarQuantity.Constant ⟨1, Unit'.dimensionless⟩) ∧
    VarQuantity.deserialize (qtOfUnit Unit'.dimensionless) spWitness 1 =
      Except.error 9 :=
  ⟨(varQuantity_deserialize_spec (qtOfUnit Unit'.dimensionless) spWitness 0).1
      ⟨1, Unit'.dimensionless⟩ rfl,
   (varQuantity_deserialize_spec (qtOfUnit Unit'.dimensionless) spWitness 1).2.2.2.2.1
      7 9 rfl rfl⟩

instance : Inhabited ExpTerm := ⟨⟨⟨0, default⟩, ⟨0, default⟩⟩⟩

/-- Spec §4.2 (table, Polynomial row), written from the spec's words for
the C4 refinement statement: the influencing-factor dimension is
`aₙ.dim / aₙ₋₁.dim`, where `aₙ` is the last coefficient (dimensionless when
there are fewer than two coefficients). -/
def polySpecInfluencingUnit (coefficients : List DynQuantity) : Unit' :=
  if coefficients.length > 1 then
    (coefficients.reverse.getD 0 default).unit /
      (coefficients.reverse.getD 1 default).unit
  else default

/-- Spec §4.2 (table, Polynomial row construction check), written from the
spec's words: for every coefficient at distance `k` from the end, its
dimension times the `k`-th power of the influencing-factor dimension must
equal the last coefficient's dimension. -/
def polySpecConsistent (coefficients : List DynQuantity) : Prop :=
  ∀ k, k < coefficients.length →
    (coefficients.reverse.getD k default).unit *
      (polySpecInfluencingUnit coefficients).powi (k : Int) =
    (coefficients.reverse.getD 0 default).unit

/-- Spec §4.2 (table, Sum-of-Exponentials row construction check), written
from the spec's words: all terms share one amplitude dimension and one
exponent dimension. -/
def expSpecConsistent (terms : List ExpTerm) : Prop :=
  ∀ t1 ∈ terms, ∀ t2 ∈ terms,
    t1.amplitude.unit = t2.amplitude.unit ∧
    t1.exponent.unit = t2.exponent.unit

/-- Helper: multiplying by a zeroth power is the identity on units. -/
theorem Unit'.mul_powi_zero (u v : Unit') : u * v.powi 0 = u := by
  cases u
  cases v
  simp [Unit'.mul_def, Unit'.mul, Unit'.powi]

/-- Helper: `getD` after dropping the first element. -/
theorem List.getD_drop_one {α : Type} (m : List α) (i : Nat) (d : α) :
    (m.drop 1).getD i d = m.getD (i + 1) d := by
  cases m with
  | nil => simp [List.getD]
  | cons c rest => simp [List.getD_cons_succ]

/-- Helper: `getD 0` is the head with a default. -/
theorem List.getD_zero_eq_head? {α : Type} (m : List α) (d : α) :
    m.getD 0 d = m.head?.getD d := by
  cases m <;> simp

/-- Helper: `polyUnitCheck` passes iff every visited coefficient satisfies
the unit equation at its exponent. -/
theorem polyUnitCheck_eq_none_iff (base_unit ifu : Unit') (n : Nat)
    (l : List DynQuantity) :
    polyUnitCheck base_unit ifu n l = none ↔
      ∀ i, i < l.length →
        base_unit = (l.getD i default).unit * ifu.powi ((n + i : Nat) : Int) := by
  induction l generalizing n with
  | nil => simp [polyUnitCheck]
  | cons c rest ih =>
      simp only [polyUnitCheck]
      by_cases h : base_unit = c.unit * ifu.powi ((n : Nat) : Int)
      · rw [if_neg (not_not_intro h), ih (n + 1)]
        constructor
        · intro hrest i hi
          cases i with
          | zero => simpa using h
          | succ i =>
              have := hrest i (by simpa using hi)
              rw [List.getD_cons_succ]
              convert this using 4
              omega
        · intro hall i hi
          have := hall (i + 1) (by simpa using hi)
          rw [List.getD_cons_succ] at this
          convert this using 4
          omega
      · rw [if_pos h]
        refine iff_of_false (by simp) ?_
        intro hall
        exact h (by simpa using hall 0 (Nat.succ_pos _))

/-- Helper: when `polyUnitCheck` fails, the error names the base unit and
the offending product, at some visited index. -/
theorem polyUnitCheck_some (base_unit ifu : Unit') (n : Nat)
    (l : List DynQuantity) (err : UnitsNotEqual)
    (h : polyUnitCheck base_unit ifu n l = some err) :
    ∃ i, i < l.length ∧
      err = ⟨base_unit, (l.getD i default).unit * ifu.powi ((n + i : Nat) : Int)⟩ ∧
      base_unit ≠ (l.getD i default).unit * ifu.powi ((n + i : Nat) : Int) := by
  induction l generalizing n with
  | nil => simp [polyUnitCheck] at h
  | cons c rest ih =>
      simp only [polyUnitCheck] at h
      by_cases hc : base_unit = c.unit * ifu.powi ((n : Nat) : Int)
      · rw [if_neg (not_not_intro hc)] at h
        obtain ⟨i, hi, he, hne⟩ := ih (n + 1) h
        refine ⟨i + 1, by simpa using hi, ?_, ?_⟩
        · rw [List.getD_cons_succ]
          convert he using 5
          omega
        · rw [List.getD_cons_succ]
          convert hne using 4
          omega
      · rw [if_pos hc] at h
        cases h
        exact ⟨0, Nat.succ_pos _, by simp, by simpa using hc⟩

/-- Helper: the adjacent-pair check passes iff every term carries the head
term's amplitude and exponent units. -/
theorem expPairCheck_cons_none (t : ExpTerm) (ts : List ExpTerm) :
    expPairCheck (t :: ts) = none ↔
      ∀ t2 ∈ t :: ts, t2.amplitude.unit = t.amplitude.unit ∧
        t2.exponent.unit = t.exponent.unit := by
  induction ts generalizing t with
  | nil =>
      simp only [expPairCheck, List.mem_singleton]
      constructor
      · rintro _ t2 rfl
        exact ⟨rfl, rfl⟩
      · intro _
        trivial
  | cons t2 rest ih =>
      constructor
      · intro h
        simp only [expPairCheck] at h
        by_cases ha : t.amplitude.unit ≠ t2.amplitude.unit
        · rw [if_pos ha] at h
          simp at h
        · rw [if_neg ha] at h
          by_cases he : t.exponent.unit ≠ t2.exponent.unit
          · rw [if_pos he] at h
            simp at h
          · rw [if_neg he] at h
            push_neg at ha he
            have hrest := (ih t2).mp h
            intro x hx
            rcases List.mem_cons.mp hx with hx | hx
            · subst hx
              exact ⟨rfl, rfl⟩
            · obtain ⟨hxa, hxe⟩ := hrest x hx
              exact ⟨hxa.trans ha.symm, hxe.trans he.symm⟩
      · intro hall
        obtain ⟨h12a, h12e⟩ := hall t2 (by simp)
        simp only [expPairCheck]
        rw [if_neg (not_not_intro h12a.symm), if_neg (not_not_intro h12e.symm)]
        refine (ih t2).mpr ?_
        intro x hx
        obtain ⟨hxa, hxe⟩ := hall x (List.mem_cons_of_mem t hx)
        exact ⟨hxa.trans h12a.symm, hxe.trans h12e.symm⟩

/-- Helper: the adjacent-pair check passes iff the spec's consistency
condition (all pairs share amplitude and exponent units) holds. -/
theorem expPairCheck_eq_none_iff (terms : List ExpTerm) :
    expPairCheck terms = none ↔ expSpecConsistent terms := by
  cases terms with
  | nil => simp [expPairCheck, expSpecConsistent]
  | cons t ts =>
      rw [expPairCheck_cons_none]
      constructor
      · intro h t1 h1 t2 h2
        obtain ⟨a1, e1⟩ := h t1 h1
        obtain ⟨a2, e2⟩ := h t2 h2
        exact ⟨a1.trans a2.symm, e1.trans e2.symm⟩
      · intro h t2 h2
        exact h t2 h2 t (by simp)

/-- Helper: when the adjacent-pair check fails, the error names the two
offending units of some adjacent pair of terms (amplitudes checked before
exponents). -/
theorem expPairCheck_some (terms : List ExpTerm) (err : UnitsNotEqual)
    (h : expPairCheck terms = some err) :
    ∃ i, i + 1 < terms.length ∧
      ((err = ⟨(terms.getD i default).amplitude.unit,
               (terms.getD (i + 1) default).amplitude.unit⟩ ∧
        (terms.getD i default).amplitude.unit ≠
          (terms.getD (i + 1) default).amplitude.unit) ∨
       (err = ⟨(terms.getD i default).exponent.unit,
               (terms.getD (i + 1) default).exponent.unit⟩ ∧
        (terms.getD i default).exponent.unit ≠
          (terms.getD (i + 1) default).exponent.unit)) := by
  induction terms with
  | nil => simp [expPairCheck] at h
  | cons t1 rest ih =>
      cases rest with
      | nil => simp [expPairCheck] at h
      | cons t2 rest2 =>
          simp only [expPairCheck] at h
          by_cases ha : t1.amplitude.unit ≠ t2.amplitude.unit
          · rw [if_pos ha] at h
            cases h
            exact ⟨0, by simp, Or.inl ⟨by simp, by simpa using ha⟩⟩
          · rw [if_neg ha] at h
            by_cases he : t1.exponent.unit ≠ t2.exponent.unit
            · rw [if_pos he] at h
              cases h
              exact ⟨0, by simp, Or.inr ⟨by simp, by simpa using he⟩⟩
            · rw [if_neg he] at h
              obtain ⟨i, hi, hcase⟩ := ih h
              exact ⟨i + 1, by simpa using hi, by
                simpa [List.getD_cons_succ] using hcase⟩

/-- Helper: the influencing-factor unit computed by `Polynomial::new` from
the last two coefficients equals the spec's formulation over the reversed
list. -/
theorem polyCode_ifu_eq (coefficients : List DynQuantity) :
    (if coefficients.length > 1 then
      (coefficients.getD (coefficients.length - 1) default).unit /
        (coefficients.getD (coefficients.length - 2) default).unit
    else default) = polySpecInfluencingUnit coefficients := by
  unfold polySpecInfluencingUnit
  by_cases h : coefficients.length > 1
  · rw [if_pos h, if_pos h]
    have h0 : coefficients.reverse.getD 0 default =
        coefficients.getD (coefficients.length - 1) default := by
      rw [List.getD_eq_getElem?_getD, List.getD_eq_getElem?_getD,
        List.getElem?_reverse (by omega)]
      simp
    have h1 : coefficients.reverse.getD 1 default =
        coefficients.getD (coefficients.length - 2) default := by
      rw [List.getD_eq_getElem?_getD, List.getD_eq_getElem?_getD,
        List.getElem?_reverse (by omega)]
      have he : coefficients.length - 1 - 1 = coefficients.length - 2 := by omega
      rw [he]
    rw [h0, h1]
  · rw [if_neg h, if_neg h]

/-- Helper: the last element is the reversed list's entry at index `0`. -/
theorem rev_getD_zero_of_getLast? {coefficients : List DynQuantity}
    {b : DynQuantity} (h : coefficients.getLast? = some b) :
    coefficients.reverse.getD 0 default = b := by
  rw [List.getD_zero_eq_head?, List.head?_reverse, h]
  rfl

/-- Helper: `Polynomial::new` succeeds iff the spec's consistency condition
over the coefficient units holds. -/
theorem polynomial_new_ok_iff (coefficients : List DynQuantity) :
    (∃ p, Polynomial'.new coefficients = Except.ok p) ↔
      polySpecConsistent coefficients := by
  cases hlast : coefficients.getLast? with
  | none =>
      have hnil : coefficients = [] := List.getLast?_eq_none_iff.mp hlast
      subst hnil
      refine iff_of_true ⟨_, rfl⟩ ?_
      intro k hk
      simp at hk
  | some b =>
      have hb : coefficients.reverse.getD 0 default = b :=
        rev_getD_zero_of_getLast? hlast
      have hred : Polynomial'.new coefficients =
          (match polyUnitCheck b.unit (polySpecInfluencingUnit coefficients) 1
              (coefficients.reverse.drop 1) with
           | some e => Except.error e
           | none => Except.ok ⟨coefficients, polySpecInfluencingUnit coefficients,
               coefficients.map (fun q => q.value), b⟩) := by
        rw [Polynomial'.new.eq_def, ← polyCode_ifu_eq, hlast]
      rw [hred]
      cases hchk : polyUnitCheck b.unit (polySpecInfluencingUnit coefficients) 1
          (coefficients.reverse.drop 1) with
      | none =>
          refine iff_of_true ⟨_, rfl⟩ ?_
          have hall := (polyUnitCheck_eq_none_iff _ _ _ _).mp hchk
          intro k hk
          cases k with
          | zero =>
              simp only [Nat.cast_zero]
              rw [Unit'.mul_powi_zero]
          | succ i =>
              have hi : i < (coefficients.reverse.drop 1).length := by
                simp only [List.length_drop, List.length_reverse]
                omega
              have hg := hall i hi
              rw [List.getD_drop_one] at hg
              rw [hb]
              have hcast : (1 + i : Nat) = i + 1 := by omega
              rw [hcast] at hg
              exact hg.symm
      | some err =>
          refine iff_of_false (by simp) ?_
          intro hcons
          obtain ⟨i, hi, _, hne⟩ := polyUnitCheck_some _ _ _ _ _ hchk
          rw [List.getD_drop_one] at hne
          have hk : i + 1 < coefficients.length := by
            simp only [List.length_drop, List.length_reverse] at hi
            omega
          have hg := hcons (i + 1) hk
          rw [hb] at hg
          apply hne
          have hcast : (1 + i : Nat) = i + 1 := by omega
          rw [hcast]
          exact hg.symm

/-- Helper: when `Polynomial::new` fails, the error names the last
coefficient's unit and the offending coefficient's unit times the matching
power of the influencing-factor unit. -/
theorem polynomial_new_error_names (coefficients : List DynQuantity)
    (err : UnitsNotEqual) (h : Polynomial'.new coefficients = Except.error err) :
    ∃ k, 1 ≤ k ∧ k < coefficients.length ∧
      err = ⟨(coefficients.reverse.getD 0 default).unit,
             (coefficients.reverse.getD k default).unit *
               (polySpecInfluencingUnit coefficients).powi (k : Int)⟩ ∧
      (coefficients.reverse.getD 0 default).unit ≠
        (coefficients.reverse.getD k default).unit *
          (polySpecInfluencingUnit coefficients).powi (k : Int) := by
  cases hlast : coefficients.getLast? with
  | none =>
      have hnil : coefficients = [] := List.getLast?_eq_none_iff.mp hlast
      subst hnil
      simp [Polynomial'.new] at h
  | some b =>
      have hb : coefficients.reverse.getD 0 default = b :=
        rev_getD_zero_of_getLast? hlast
      have hred : Polynomial'.new coefficients =
          (match polyUnitCheck b.unit (polySpecInfluencingUnit coefficients) 1
              (coefficients.reverse.drop 1) with
           | some e => Except.error e
           | none => Except.ok ⟨coefficients, polySpecInfluencingUnit coefficients,
               coefficients.map (fun q => q.value), b⟩) := by
        rw [Polynomial'.new.eq_def, ← polyCode_ifu_eq, hlast]
      rw [hred] at h
      cases hchk : polyUnitCheck b.unit (polySpecInfluencingUnit coefficients) 1
          (coefficients.reverse.drop 1) with
      | none =>
          rw [hchk] at h
          simp at h
      | some err2 =>
          rw [hchk] at h
          cases h
          obtain ⟨i, hi, he, hne⟩ := polyUnitCheck_some _ _ _ _ _ hchk
          rw [List.getD_drop_one] at he hne
          have hcast : (1 + i : Nat) = i + 1 := by omega
          rw [hcast] at he hne
          refine ⟨i + 1, by omega, ?_, ?_, ?_⟩
          · simp only [List.length_drop, List.length_reverse] at hi
            omega
          · rw [hb, he]
          · rw [hb]
            exact hne

/-- Helper: the reduction of `Exponential::new` to the adjacent-pair
check. -/
theorem exponential_new_eq_match (terms : List ExpTerm) :
    Exponential.new terms =
      (match expPairCheck terms with
       | some e => Except.error e
       | none => Except.ok ⟨terms,
           ((terms.head?).map (fun term => term.amplitude.unit)).getD default,
           (match terms.head? with
            | some t => t.exponent.unit.powi (-1)
            | none => default)⟩) := rfl

/-- Helper: `Exponential::new` succeeds iff the spec's consistency
condition (shared amplitude and exponent units) holds. -/
theorem exponential_new_ok_iff (terms : List ExpTerm) :
    (∃ e, Exponential.new terms = Except.ok e) ↔ expSpecConsistent terms := by
  rw [exponential_new_eq_match]
  cases hchk : expPairCheck terms with
  | none => exact iff_of_true ⟨_, rfl⟩ ((expPairCheck_eq_none_iff terms).mp hchk)
  | some err =>
      refine iff_of_false (by simp) ?_
      intro hcons
      rw [← expPairCheck_eq_none_iff, hchk] at hcons
      simp at hcons

/-- Helper: when `Exponential::new` fails, the error names the two
offending units of an adjacent pair. -/
theorem exponential_new_error_names (terms : List ExpTerm)
    (err : UnitsNotEqual) (h : Exponential.new terms = Except.error err) :
    ∃ i, i + 1 < terms.length ∧
      ((err = ⟨(terms.getD i default).amplitude.unit,
               (terms.getD (i + 1) default).amplitude.unit⟩ ∧
        (terms.getD i default).amplitude.unit ≠
          (terms.getD (i + 1) default).amplitude.unit) ∨
       (err = ⟨(terms.getD i default).exponent.unit,
               (terms.getD (i + 1) default).exponent.unit⟩ ∧
        (terms.getD i default).exponent.unit ≠
          (terms.getD (i + 1) default).exponent.unit)) := by
  rw [exponential_new_eq_match] at h
  cases hchk : expPairCheck terms with
  | none =>
      rw [hchk] at h
      simp at h
  | some err2 =>
      rw [hchk] at h
      cases h
      exact expPairCheck_some terms _ hchk

/-- Helper: `FirstOrderTaylor::new` succeeds iff the product of the
expansion-point unit and the slope unit is dimensionless. -/
theorem firstOrderTaylor_new_ok_iff (base_value slope expansion_point :
    DynQuantity) :
    (∃ t, FirstOrderTaylor.new base_value slope expansion_point =
      Except.ok t) ↔
      expansion_point.unit * slope.unit = Unit'.dimensionless := by
  by_cases h : (default : Unit') = expansion_point.unit * slope.unit
  · have hok : FirstOrderTaylor.new base_value slope expansion_point =
        Except.ok ⟨base_value, slope, expansion_point⟩ := by
      simp only [FirstOrderTaylor.new]
      rw [if_pos h]
    exact iff_of_true ⟨_, hok⟩ h.symm
  · have herr : FirstOrderTaylor.new base_value slope expansion_point =
        Except.error ⟨default, expansion_point.unit * slope.unit⟩ := by
      simp only [FirstOrderTaylor.new]
      rw [if_neg h]
    rw [herr]
    exact iff_of_false (by simp) (fun hc => h hc.symm)

/-- Helper: when `FirstOrderTaylor::new` fails, the error names the
dimensionless unit and the offending product. -/
theorem firstOrderTaylor_new_error_names (base_value slope expansion_point :
    DynQuantity) (err : UnitsNotEqual)
    (h : FirstOrderTaylor.new base_value slope expansion_point =
      Except.error err) :
    err = ⟨Unit'.dimensionless, expansion_point.unit * slope.unit⟩ ∧
      Unit'.dimensionless ≠ expansion_point.unit * slope.unit := by
  by_cases hc : (default : Unit') = expansion_point.unit * slope.unit
  · have hok : FirstOrderTaylor.new base_value slope expansion_point =
        Except.ok ⟨base_value, slope, expansion_point⟩ := by
      simp only [FirstOrderTaylor.new]
      rw [if_pos hc]
    rw [hok] at h
    simp at h
  · have herr : FirstOrderTaylor.new base_value slope expansion_point =
        Except.error ⟨default, expansion_point.unit * slope.unit⟩ := by
      simp only [FirstOrderTaylor.new]
      rw [if_neg hc]
    rw [herr] at h
    cases h
    exact ⟨rfl, hc⟩

instance (coefficients : List DynQuantity) :
    Decidable (polySpecConsistent coefficients) := by
  unfold polySpecConsistent
  infer_instance

instance (terms : List ExpTerm) : Decidable (expSpecConsistent terms) := by
  unfold expSpecConsistent
  infer_instance

/-- C4: the three checked constructors succeed exactly when the spec's
pairwise dimension checks hold (Polynomial: every coefficient at distance
`k` from the end times the `k`-th power of the influencing-factor dimension
equals the last coefficient's dimension; Exponential: all terms share one
amplitude and one exponent dimension; Taylor: expansion-point dimension
times slope dimension is dimensionless); on failure the error names the two
offending dimensions; and Polynomial/Exponential with `0` or `1` entries
always succeed. -/
theorem constructors_consistency_spec :
    (∀ coefficients, (∃ p, Polynomial'.new coefficients = Except.ok p) ↔
      polySpecConsistent coefficients) ∧
    (∀ terms, (∃ e, Exponential.new terms = Except.ok e) ↔
      expSpecConsistent terms) ∧
    (∀ base_value slope expansion_point,
      (∃ t, FirstOrderTaylor.new base_value slope expansion_point =
        Except.ok t) ↔
      expansion_point.unit * slope.unit = Unit'.dimensionless) ∧
    (∀ coefficients err, Polynomial'.new coefficients = Except.error err →
      ∃ k, 1 ≤ k ∧ k < coefficients.length ∧
        err = ⟨(coefficients.reverse.getD 0 default).unit,
               (coefficients.reverse.getD k default).unit *
                 (polySpecInfluencingUnit coefficients).powi (k : Int)⟩ ∧
        (coefficients.reverse.getD 0 default).unit ≠
          (coefficients.reverse.getD k default).unit *
            (polySpecInfluencingUnit coefficients).powi (k : Int)) ∧
    (∀ terms err, Exponential.new terms = Except.error err →
      ∃ i, i + 1 < terms.length ∧
        ((err = ⟨(terms.getD i default).amplitude.unit,
                 (terms.getD (i + 1) default).amplitude.unit⟩ ∧
          (terms.getD i default).amplitude.unit ≠
            (terms.getD (i + 1) default).amplitude.unit) ∨
         (err = ⟨(terms.getD i default).exponent.unit,
                 (terms.getD (i + 1) default).exponent.unit⟩ ∧
          (terms.getD i default).exponent.unit ≠
            (terms.getD (i + 1) default).exponent.unit))) ∧
    (∀ base_value slope expansion_point err,
      FirstOrderTaylor.new base_value slope expansion_point =
        Except.error err →
      err = ⟨Unit'.dimensionless, expansion_point.unit * slope.unit⟩ ∧
        Unit'.dimensionless ≠ expansion_point.unit * slope.unit) ∧
    (∀ coefficients : List DynQuantity, coefficients.length ≤ 1 →
      ∃ p, Polynomial'.new coefficients = Except.ok p) ∧
    (∀ terms : List ExpTerm, terms.length ≤ 1 →
      ∃ e, Exponential.new terms = Except.ok e) := by
  refine ⟨polynomial_new_ok_iff, exponential_new_ok_iff,
    firstOrderTaylor_new_ok_iff, polynomial_new_error_names,
    exponential_new_error_names, firstOrderTaylor_new_error_names, ?_, ?_⟩
  · intro coefficients hlen
    refine (polynomial_new_ok_iff coefficients).mpr ?_
    intro k hk
    have hk0 : k = 0 := by omega
    subst hk0
    simp only [Nat.cast_zero]
    rw [Unit'.mul_powi_zero]
  · intro terms hlen
    refine (exponential_new_ok_iff terms).mpr ?_
    intro t1 h1 t2 h2
    cases terms with
    | nil => simp at h1
    | cons t ts =>
        have hts : ts = [] := by
          simp only [List.length_cons] at hlen
          exact List.eq_nil_of_length_eq_zero (by omega)
        subst hts
        simp only [List.mem_singleton] at h1 h2
        subst h1
        subst h2
        exact ⟨rfl, rfl⟩

/-- C4 witness: a consistent three-coefficient polynomial, a consistent
two-term exponential and a consistent Taylor expansion all construct; the
spec's mismatch scenario (power, voltage, current) fails with the two
offending dimensions; and the degenerate one-coefficient polynomial and
empty exponential construct. -/
theorem constructors_consistency_spec_witness :
    (∃ p, Polynomial'.new [⟨1, Unit'.dimensionless⟩, ⟨2, ⟨0, 1, 0, 0, 0, 0, 0⟩⟩,
        ⟨3, ⟨0, 2, 0, 0, 0, 0, 0⟩⟩] = Except.ok p) ∧
    (∃ e, Exponential.new [⟨⟨1, ⟨0, 2, 0, 0, 0, 0, 0⟩⟩, ⟨1, ampereUnit⟩⟩,
        ⟨⟨2, ⟨0, 2, 0, 0, 0, 0, 0⟩⟩, ⟨3, ampereUnit⟩⟩] = Except.ok e) ∧
    (∃ t, FirstOrderTaylor.new ⟨1, ⟨0, 2, 0, 0, 0, 0, 0⟩⟩
        ⟨1, Unit'.powi ampereUnit (-1)⟩ ⟨2, ampereUnit⟩ = Except.ok t) ∧
    Unit'.dimensionless ≠ ampereUnit * (⟨-3, 2, 0, 1, -1, 0, 0⟩ : Unit') ∧
    (∃ p, Polynomial'.new [⟨5, ampereUnit⟩] = Except.ok p) ∧
    (∃ e, Exponential.new ([] : List ExpTerm) = Except.ok e) :=
  ⟨(constructors_consistency_spec.1 _).mpr (by decide),
   (constructors_consistency_spec.2.1 _).mpr (by decide),
   (constructors_consistency_spec.2.2.1 _ _ _).mpr (by decide),
   (constructors_consistency_spec.2.2.2.2.2.1 ⟨1, ⟨-3, 2, 0, 1, 0, 0, 0⟩⟩
      ⟨1, ⟨-3, 2, 0, 1, -1, 0, 0⟩⟩ ⟨1, ampereUnit⟩ _ rfl).2,
   constructors_consistency_spec.2.2.2.2.2.2.1 _ (by decide),
   constructors_consistency_spec.2.2.2.2.2.2.2 _ (by decide)⟩

/-- Sanity check (spec §8 concrete scenario): Linear with `slope = 0.5`,
`base_value = -3.0` evaluated at `x = 2.0` yields `-2.0`. -/
example :
    Linear.call (Linear.new ⟨1/2, Unit'.dimensionless⟩ ⟨-3, Unit'.dimensionless⟩)
      [⟨2, Unit'.dimensionless⟩] = ⟨-2, Unit'.dimensionless⟩ := by
  show (⟨-3 + 1/2 * 2, Unit'.dimensionless⟩ : DynQuantity) = _
  simp only [DynQuantity.mk.injEq]
  refine ⟨by norm_num, trivial⟩

/-- Sanity check (spec §8 concrete scenario): the polynomial `-x² + 3x + 2`
evaluates to `4` at `x = 2` and to `2` on the empty input list. -/
example :
    Polynomial'.call ⟨[⟨-1, Unit'.dimensionless⟩, ⟨3, Unit'.dimensionless⟩,
        ⟨2, Unit'.dimensionless⟩], Unit'.dimensionless, [-1, 3, 2],
        ⟨2, Unit'.dimensionless⟩⟩ [⟨2, Unit'.dimensionless⟩] =
      ⟨4, Unit'.dimensionless⟩ ∧
    Polynomial'.call ⟨[⟨-1, Unit'.dimensionless⟩, ⟨3, Unit'.dimensionless⟩,
        ⟨2, Unit'.dimensionless⟩], Unit'.dimensionless, [-1, 3, 2],
        ⟨2, Unit'.dimensionless⟩⟩ [] = ⟨2, Unit'.dimensionless⟩ := by
  constructor
  · show (⟨eval_polynomial 2 [-1, 3, 2], Unit'.dimensionless⟩ : DynQuantity) = _
    simp only [DynQuantity.mk.injEq]
    refine ⟨?_, trivial⟩
    show List.foldl (fun acc a => acc * 2 + a) (-1) [3, 2] = 4
    norm_num
  · rfl
